import Mathlib

/-!
Verification of the host-adaptation core of a declarative 3D renderer
(source: src/index.js).  The development contains four shallow embeddings,
one per component the claims touch:

* `Props`   — the prop-application engine `applyProps` over a small JS-like
              heap of objects (src/index.js lines 23–62);
* `Scene`   — the reconciliation adapter (`createInstance`, `appendChild`,
              `removeChild`, `insertBefore`, `commitUpdate`,
              src/index.js lines 64–140) over a scene-graph state;
* `Picking` — the pointer picking engine (`handleMove`, `onClick`,
              src/index.js lines 269–323);
* `Subs`    — the subscription API (src/index.js lines 205–208).
-/

namespace Props

/-- JS runtime values as they occur in prop maps.  Reference values
(objects, functions; arrays are heap objects too) carry a numeric
identity; `===` on them is identity comparison, while on primitives it is
value comparison. -/
inductive JVal where
  | undefined : JVal
  | num : Int → JVal
  | str : String → JVal
  | fn : Nat → JVal
  | obj : Nat → JVal
deriving DecidableEq

/-- A heap object: plain fields, the duck-typed "settable" capability
(presence of a `.set` method), the `constructor.name` string, whether it
is an array (for `Array.isArray`; array elements live in `contents`), an
abstract payload mutated by `.set`/`.copy`, and the `__handlers` table
written by `applyProps`. -/
structure JObj where
  fields : List (String × JVal) := []
  settable : Bool := false
  ctorName : String := "Object"
  isArray : Bool := false
  contents : List JVal := []
  handlers : Option (List (String × Nat)) := none
deriving DecidableEq

/-- The heap: object identity → object. -/
abbrev Heap := Nat → JObj

/-- Pointwise update of a heap. -/
def upd (h : Heap) (i : Nat) (o : JObj) : Heap :=
  fun j => if j = i then o else h j

/-- A prop map, in insertion order.  JS objects cannot hold a key twice,
so keys are assumed distinct where it matters (stated explicitly). -/
abbrev PropMap := List (String × JVal)

/-- JS strict equality `===` on the modelled values. -/
def jsEq : JVal → JVal → Bool
  | .undefined, .undefined => true
  | .num a, .num b => a == b
  | .str a, .str b => a == b
  | .fn a, .fn b => a == b
  | .obj a, .obj b => a == b
  | _, _ => false

/-- JS truthiness of the modelled values. -/
def jsTruthy : JVal → Bool
  | .undefined => false
  | .num n => n != 0
  | .str s => s != ""
  | _ => true

/-- `m[k]` on a JS object: first binding wins, `undefined` when absent. -/
def lookupProp (m : PropMap) (k : String) : JVal :=
  (m.lookup k).getD .undefined

/-- Field write on an assoc list: replace the first binding in place,
append when absent (JS property-write order semantics). -/
def writeAssoc {β : Type} : List (String × β) → String → β → List (String × β)
  | [], k, v => [(k, v)]
  | (k', v') :: rest, k, v =>
      if k' = k then (k, v) :: rest else (k', v') :: writeAssoc rest k v

/-- Field read on a heap object (`undefined` when absent). -/
def getFieldOf (o : JObj) (k : String) : JVal :=
  (o.fields.lookup k).getD .undefined

/-- `str.split('-')` on the character list of a key (JS split semantics:
empty segments are kept, the empty string yields one empty segment). -/
def splitDash : List Char → List (List Char)
  | [] => [[]]
  | c :: rest =>
      let r := splitDash rest
      if c = '-' then [] :: r
      else (c :: r.headD []) :: r.tail

/-- `key.split('-')` as strings. -/
def keyEntries (k : String) : List String :=
  (splitDash k.data).map fun cs => ⟨cs⟩

/-- `key.includes('-')`. -/
def containsDash (k : String) : Bool :=
  k.data.contains '-'

/-- `key.startsWith('on')`. -/
def startsWithOn (k : String) : Bool :=
  match k.data with
  | 'o' :: 'n' :: _ => true
  | _ => false

/-- Runtime error raised by the engine. -/
inductive JErr where
  | typeError : JErr
deriving DecidableEq

/-- Property access `v[k]`: reading a field off `undefined` throws a
TypeError; reading off a primitive boxes it and yields `undefined`. -/
def getField (h : Heap) (v : JVal) (k : String) : Except JErr JVal :=
  match v with
  | .obj i => .ok (getFieldOf (h i) k)
  | .undefined => .error .typeError
  | _ => .ok .undefined

/-- `entries.reduce((acc, key) => acc[key], instance)` — the dashed-path
resolver of `applyProps`. -/
def getPath (h : Heap) : JVal → List String → Except JErr JVal
  | v, [] => .ok v
  | v, k :: ks =>
      match getField h v k with
      | .ok v2 => getPath h v2 ks
      | .error e => .error e

/-- `target.set` presence: only heap objects can carry the capability. -/
def hasSetCap (h : Heap) : JVal → Bool
  | .obj i => (h i).settable
  | _ => false

/-- `v.constructor.name`; `undefined.constructor` throws. -/
def ctorNameOf (h : Heap) : JVal → Except JErr String
  | .obj i => .ok (h i).ctorName
  | .num _ => .ok "Number"
  | .str _ => .ok "String"
  | .fn _ => .ok "Function"
  | .undefined => .error .typeError

/-- `Array.isArray(value)`. -/
def isArrayVal (h : Heap) : JVal → Bool
  | .obj i => (h i).isArray
  | _ => false

/-- Payload read used by `target.copy(value)`. -/
def contentsOf (h : Heap) : JVal → List JVal
  | .obj i => (h i).contents
  | v => [v]

/-- Overwrite the abstract payload of a settable object (`.set`/`.copy`). -/
def setContents (h : Heap) (t : Nat) (cs : List JVal) : Heap :=
  upd h t { h t with contents := cs }

/-- Plain field write `o[k] = v` on a heap object. -/
def setField (h : Heap) (r : Nat) (k : String) (v : JVal) : Heap :=
  upd h r { h r with fields := writeAssoc (h r).fields k v }

/-- One iteration of the `Object.entries(filteredProps).forEach` body of
`applyProps` (src/index.js lines 29–51): resolve the (possibly dashed)
key, then write through the settable capability or as a plain field. -/
def applyKey (h : Heap) (inst : Nat) (key0 : String) (value : JVal) :
    Except JErr Heap := do
  let resolved ←
    if containsDash key0 then do
      let entries := keyEntries key0
      let target ← getPath h (.obj inst) entries
      if jsTruthy target && !(hasSetCap h target) then do
        -- the target is atomic: switch the root to the parent container
        let root ← getPath h (.obj inst) entries.dropLast
        pure (root, (entries.getLast?).getD "", target)
      else
        pure (JVal.obj inst, key0, target)
    else
      pure (JVal.obj inst, key0, getFieldOf (h inst) key0)
  let (root, key, target) := resolved
  if jsTruthy target && hasSetCap h target then
    match target with
    | .obj t => do
        let cn ← ctorNameOf h value
        if (h t).ctorName == cn then
          pure (setContents h t (contentsOf h value))      -- target.copy(value)
        else if isArrayVal h value then
          pure (setContents h t (contentsOf h value))      -- target.set(...value)
        else
          pure (setContents h t [value])                   -- target.set(value)
    | _ => pure h   -- unreachable: the settable capability lives on objects
  else
    match root with
    | .obj r => pure (setField h r key value)              -- root[key] = value
    | .undefined => .error .typeError
    | _ => pure h   -- writing a property onto a primitive is dropped

/-- The write loop of `applyProps`: a thrown error aborts the loop,
leaving the writes already performed in place. -/
def runWrites (h : Heap) (inst : Nat) : List (String × JVal) → Heap × Option JErr
  | [] => (h, none)
  | (k, v) :: rest =>
      match applyKey h inst k v with
      | .ok h2 => runWrites h2 inst rest
      | .error e => (h, some e)

/-- Handler props: function values under a key starting with "on". -/
def isHandlerProp (k : String) (v : JVal) : Bool :=
  (match v with | .fn _ => true | _ => false) && startsWithOn k

/-- Keys omitted from the mutation set besides same-valued and handler
props. -/
def reservedKeys : List String := ["children", "key", "ref"]

/-- `filteredProps`: drop props whose value strictly equals the old one,
handler props, and reserved structural keys (src/index.js lines 25–27). -/
def filteredPropsOf (newProps oldProps : PropMap) : PropMap :=
  newProps.filter fun kv =>
    !(jsEq kv.2 (lookupProp oldProps kv.1))
      && !(isHandlerProp kv.1 kv.2)
      && !(reservedKeys.contains kv.1)

/-- The handler props of the new prop map, in order. -/
def handlersOf (newProps : PropMap) : PropMap :=
  newProps.filter fun kv => isHandlerProp kv.1 kv.2

/-- "onClick" → "click": `key.charAt(2).toLowerCase() + key.substr(3)`. -/
def stripOn (k : String) : String :=
  match k.data with
  | _ :: _ :: c :: rest => ⟨c.toLower :: rest⟩
  | _ => ⟨[]⟩

/-- `handlers.reduce((acc, key) => \x7b ...acc, [name]: newProps[key] \x7d, \x7b\x7d)`. -/
def buildHandlerTable (hs : PropMap) : List (String × Nat) :=
  hs.foldl
    (fun acc kv =>
      match kv.2 with
      | .fn f => writeAssoc acc (stripOn kv.1) f
      | _ => acc)   -- unreachable: handler props are function-valued
    []

/-- A call dispatched by the engine to user code. -/
inductive Call where
  | update : Nat → Nat → Call
deriving DecidableEq

/-- Result of one `applyProps` run: the heap, the user-code calls made,
and the error that aborted the run, if any. -/
structure APResult where
  heap : Heap
  calls : List Call
  err : Option JErr

/-- `applyProps(instance, newProps, oldProps)` (src/index.js lines 23–62).
The whole body is gated on `filteredProps` being non-empty; the handler
table is rebuilt afterwards only when some handler prop exists, and a
fresh "update" entry is invoked at once. -/
def applyProps (h : Heap) (inst : Nat) (newProps oldProps : PropMap) : APResult :=
  let handlers := handlersOf newProps
  let filtered := filteredPropsOf newProps oldProps
  if filtered.isEmpty then ⟨h, [], none⟩
  else
    match runWrites h inst filtered with
    | (h2, some e) => ⟨h2, [], some e⟩
    | (h2, none) =>
        if handlers.isEmpty then ⟨h2, [], none⟩
        else
          let table := buildHandlerTable handlers
          let h3 := upd h2 inst { h2 inst with handlers := some table }
          match table.lookup "update" with
          | some f => ⟨h3, [Call.update f inst], none⟩
          | none => ⟨h3, [], none⟩

/-- The all-default heap (every object fresh and empty). -/
def emptyHeap : Heap := fun _ => {}

/-- Prop map used by the C4 witness: one changed plain prop plus two
handler props, one of them an update handler. -/
def C4news : PropMap := [("foo", JVal.num 1), ("onUpdate", JVal.fn 7), ("onClick", JVal.fn 3)]

/-- Heap for the C8 run: instance 0 has a plain numeric field "foo" and a
field "a" holding an empty object, so the dashed path "a-b-c" dies at the
missing intermediate "b". -/
def C8heap : Heap :=
  fun i => if i = 0 then { fields := [("foo", JVal.num 0), ("a", JVal.obj 1)] } else {}

end Props


namespace Scene

/-- A live instance of the reconciliation adapter: either a spatial
SceneNode (`isObject3D`) or a DataLeaf placeholder wrapping a non-spatial
resource, each named by a numeric identity. -/
inductive Inst where
  | node : Nat → Inst
  | leaf : Nat → Inst
deriving DecidableEq

/-- `instance.isObject3D`. -/
def Inst.isNode : Inst → Bool
  | .node _ => true
  | .leaf _ => false

/-- The mutable data of a SceneNode: its ordered structural child list,
its parent back-reference, and its name field. -/
structure NodeData where
  children : List Inst := []
  parent : Option Inst := none
  name : String := ""
deriving DecidableEq

/-- The mutable data of a DataLeaf placeholder `\x7b current \x7d`: the
reference to the current underlying resource and the parent
back-reference (`none` models JS `undefined`). -/
structure LeafData where
  current : Option Nat := none
  parent : Option Inst := none
deriving DecidableEq

/-- The mutable data of a non-spatial underlying resource: its name and
its `type` tag (the constructor tag it was built from). -/
structure ResData where
  name : String := ""
  rtype : String := ""
deriving DecidableEq

/-- Pointwise update of an id-indexed store. -/
def updF {α : Type} (f : Nat → α) (i : Nat) (v : α) : Nat → α :=
  fun j => if j = i then v else f j

/-- The scene-graph state: stores for SceneNodes, DataLeaf placeholders
and underlying resources, plus a fresh-identity counter for allocation. -/
structure SceneState where
  nodes : Nat → NodeData
  leafs : Nat → LeafData
  ress : Nat → ResData
  fresh : Nat

/-- Calls and effects the adapter performs, recorded for counting:
`created` is a `createInstance` call, `removed` / `appended` are the
`removeChild` / `appendChild` calls made by `commitUpdate`, `fieldWrite`
is the named-field write `applyProps(parent, \x7b [name]: resource \x7d)`
done when appending a DataLeaf, and `added` is the "added" event
dispatched by `insertBefore`. -/
inductive SEvent where
  | created : String → SEvent
  | removed : Option Inst → Inst → SEvent
  | appended : Option Inst → Inst → SEvent
  | fieldWrite : Inst → String → Nat → SEvent
  | added : Inst → SEvent
deriving DecidableEq

def SEvent.isCreated : SEvent → Bool
  | .created _ => true
  | _ => false

def SEvent.isRemoved : SEvent → Bool
  | .removed _ _ => true
  | _ => false

def SEvent.isAppended : SEvent → Bool
  | .appended _ _ => true
  | _ => false

/-- The props of a virtual node, at the granularity the adapter needs:
the construction-argument list and the `name` prop if present.  The full
prop-application engine is the `Props` model; inside this adapter model
`applyProps` is tracked only through the fields the adapter itself reads
back (the name of a resource). -/
structure SProps where
  args : List Int := []
  name : Option String := none
deriving DecidableEq

/-- Scene-level abridgment of `applyProps` for the tracked name field: a
`name` prop that is present and differs from the old value (strict string
comparison) is written, anything else leaves the field alone. -/
def applyNameField (cur : String) (newP oldP : SProps) : String :=
  match newP.name with
  | some nm => if oldP.name = some nm then cur else nm
  | none => cur

/-- `parentInstance.add(child)` of the scene-graph library (spec section
6): detach the child from its previous parent, set its parent, and push
it onto the ordered child list. -/
def threeAdd (s : SceneState) (pid cid : Nat) : SceneState :=
  let s1 :=
    match (s.nodes cid).parent with
    | some (Inst.node q) =>
        { s with nodes := updF s.nodes q ({ s.nodes q with children := (s.nodes q).children.erase (Inst.node cid) }) }
    | _ => s
  let s2 := { s1 with nodes := updF s1.nodes cid ({ s1.nodes cid with parent := some (Inst.node pid) }) }
  { s2 with nodes := updF s2.nodes pid ({ s2.nodes pid with children := (s2.nodes pid).children ++ [Inst.node cid] }) }

/-- `parentInstance.remove(child)` of the scene-graph library: remove the
first occurrence from the child list and clear the parent, a no-op when
the child is not present. -/
def threeRemove (s : SceneState) (pid cid : Nat) : SceneState :=
  if (s.nodes pid).children.contains (Inst.node cid) then
    let s1 := { s with nodes := updF s.nodes pid ({ s.nodes pid with children := (s.nodes pid).children.erase (Inst.node cid) }) }
    { s1 with nodes := updF s1.nodes cid ({ s1.nodes cid with parent := none }) }
  else s

/-- `createInstance(type, \x7b args = [], ...props \x7d)` (src/index.js lines
64–70): construct from the registry (`reg` says whether the constructed
object exposes spatial identity), apply the initial props (tracked: the
name), and wrap a non-spatial object in a fresh `\x7b current \x7d`
placeholder.  The reserved "primitive" tag is not modelled. -/
def createInstance (s : SceneState) (reg : String → Bool) (type : String) (props : SProps) :
    SceneState × Inst × List SEvent :=
  if reg type then
    let nid := s.fresh
    ({ s with
        nodes := updF s.nodes nid ({ children := [], parent := none, name := props.name.getD "" }),
        fresh := nid + 1 },
     Inst.node nid, [SEvent.created type])
  else
    let rid := s.fresh
    let lid := s.fresh + 1
    ({ s with
        ress := updF s.ress rid ({ name := props.name.getD "", rtype := type }),
        leafs := updF s.leafs lid ({ current := some rid, parent := none }),
        fresh := s.fresh + 2 },
     Inst.leaf lid, [SEvent.created type])

/-- `appendChild(parentInstance, child)` (src/index.js lines 72–82): a
spatial child is added to the parent; a DataLeaf child with a truthy
resource name gets its parent back-reference set and the resource is
exposed as a named field on the parent (the `applyProps` call with the
singleton prop map, recorded as a `fieldWrite`); a DataLeaf whose
resource name is falsy is ignored entirely. -/
def appendChild (s : SceneState) (p : Option Inst) (c : Inst) : SceneState × List SEvent :=
  match c with
  | Inst.node cid =>
      match p with
      | some (Inst.node pid) => (threeAdd s pid cid, [])
      | _ => (s, [])   -- the host would fail: a non-spatial parent has no add
  | Inst.leaf lid =>
      match (s.leafs lid).current with
      | some r =>
          if (s.ress r).name ≠ "" then
            let s1 := { s with leafs := updF s.leafs lid ({ s.leafs lid with parent := p }) }
            match p with
            | some pi => (s1, [SEvent.fieldWrite pi ((s.ress r).name) r])
            | none => (s1, [])   -- applyProps on an undefined parent throws after the parent set
          else (s, [])
      | none => (s, [])   -- child.current undefined: host error, nothing modelled

/-- `removeChild(parentInstance, child)` (src/index.js lines 84–89): a
spatial child is removed from the parent; a DataLeaf only has its parent
back-reference cleared. -/
def removeChild (s : SceneState) (p : Option Inst) (c : Inst) : SceneState × List SEvent :=
  match c with
  | Inst.node cid =>
      match p with
      | some (Inst.node pid) => (threeRemove s pid cid, [])
      | _ => (s, [])
  | Inst.leaf lid =>
      ({ s with leafs := updF s.leafs lid ({ s.leafs lid with parent := none }) }, [])

/-- `children.indexOf(beforeChild)`. -/
def jsIndexOf (l : List Inst) (b : Inst) : Int :=
  match l.findIdx? (fun ch => ch == b) with
  | some k => (k : Int)
  | none => -1

/-- Index normalization of `Array.prototype.slice`: negative indices
count from the end, clamped to the array bounds. -/
def jsNormIdx (i : Int) (len : Nat) : Nat :=
  if i < 0 then ((len : Int) + i).toNat else min i.toNat len

/-- `insertBefore(parentInstance, child, beforeChild)` (src/index.js
lines 103–117): a spatial child has its parent set, dispatches "added",
and is spliced into the parent child list right before the reference
child (`children.slice(0, index) ++ [child] ++ children.slice(index)`);
a DataLeaf child only has its parent back-reference set. -/
def insertBefore (s : SceneState) (p : Inst) (c : Inst) (b : Inst) : SceneState × List SEvent :=
  match c with
  | Inst.node cid =>
      let s1 := { s with nodes := updF s.nodes cid ({ s.nodes cid with parent := some p }) }
      match p with
      | Inst.node pid =>
          let ch := (s1.nodes pid).children
          let idx := jsNormIdx (jsIndexOf ch b) ch.length
          ({ s1 with nodes := updF s1.nodes pid ({ s1.nodes pid with children := ch.take idx ++ [c] ++ ch.drop idx }) },
           [SEvent.added c])
      | Inst.leaf _ => (s1, [SEvent.added c])   -- host error: a leaf wrapper has no child list
  | Inst.leaf lid =>
      ({ s with leafs := updF s.leafs lid ({ s.leafs lid with parent := some p }) }, [])

/-- `argsNew.some((value, index) => value !== argsOld[index])`: the
re-instantiation trigger of `commitUpdate` — positions are compared over
the indices of the NEW list only, a position past the end of the old list
reads `undefined` and therefore differs. -/
def reinstCond (argsNew argsOld : List Int) : Bool :=
  argsNew.enum.any fun iv => !(argsOld.get? iv.1 == some iv.2)

/-- `commitUpdate(instance, updatePayload, type, oldProps, newProps)`
(src/index.js lines 118–140).  A SceneNode gets the prop diff applied in
place.  A DataLeaf whose trigger fires is re-instantiated: a replacement
is constructed via `createInstance` from `instance.current.type`, the old
placeholder is removed from the parent and the replacement appended, and
the placeholder then has its `current` and `parent` fields overwritten in
place.  Otherwise the non-argument prop diff is applied to the underlying
resource. -/
def commitUpdate (s : SceneState) (reg : String → Bool) (i : Inst)
    (oldProps newProps : SProps) : SceneState × List SEvent :=
  match i with
  | Inst.node nid =>
      ({ s with nodes := updF s.nodes nid ({ s.nodes nid with name := applyNameField (s.nodes nid).name newProps oldProps }) }, [])
  | Inst.leaf lid =>
      let parent := (s.leafs lid).parent
      if reinstCond newProps.args oldProps.args then
        match (s.leafs lid).current with
        | some rOld =>
            let made := createInstance s reg ((s.ress rOld).rtype) newProps
            let s1 := made.1
            let newInst := made.2.1
            let ev1 := made.2.2
            let rem := removeChild s1 parent (Inst.leaf lid)
            let app := appendChild rem.1 parent newInst
            let s3 := app.1
            let newCur :=
              match newInst with
              | Inst.leaf l2 => (s3.leafs l2).current
              | Inst.node _ => none   -- newInstance.current is undefined on a spatial object
            let newPar :=
              match newInst with
              | Inst.leaf l2 => (s3.leafs l2).parent
              | Inst.node n2 => (s3.nodes n2).parent
            ({ s3 with leafs := updF s3.leafs lid ({ current := newCur, parent := newPar }) },
             ev1 ++ [SEvent.removed parent (Inst.leaf lid)] ++ rem.2
                 ++ [SEvent.appended parent newInst] ++ app.2)
        | none => (s, [])   -- instance.current undefined: reading .type throws
      else
        match (s.leafs lid).current with
        | some r =>
            ({ s with ress := updF s.ress r ({ s.ress r with name := applyNameField (s.ress r).name newProps oldProps }) }, [])
        | none => (s, [])   -- applyProps on an undefined target throws

/-- One effect operation requested by the external diff engine. -/
inductive AdapterOp where
  | create : String → SProps → AdapterOp
  | append : Option Inst → Inst → AdapterOp
  | insert : Inst → Inst → Inst → AdapterOp
  | remove : Option Inst → Inst → AdapterOp
  | commit : Inst → SProps → SProps → AdapterOp

/-- Apply one adapter operation to the scene state. -/
def stepOp (reg : String → Bool) (s : SceneState) : AdapterOp → SceneState
  | .create t props => (createInstance s reg t props).1
  | .append p c => (appendChild s p c).1
  | .insert p c b => (insertBefore s p c b).1
  | .remove p c => (removeChild s p c).1
  | .commit i o n => (commitUpdate s reg i o n).1

/-- Every member of every structural child list is a SceneNode. -/
def childrenInv (s : SceneState) : Prop :=
  ∀ nid : Nat, ∀ ch ∈ (s.nodes nid).children, ch.isNode = true

/-- The empty scene: no instances yet, fresh counter at zero. -/
def initState : SceneState :=
  { nodes := fun _ => {}, leafs := fun _ => {}, ress := fun _ => {}, fresh := 0 }

/-- A scene whose node 0 has three structural children. -/
def C2state : SceneState :=
  { nodes := fun i => if i = 0 then { children := [Inst.node 1, Inst.node 2, Inst.node 3] } else {},
    leafs := fun _ => {},
    ress := fun _ => {},
    fresh := 10 }

/-- A scene with one DataLeaf (placeholder 0 wrapping resource 0, child
of node 1), used by the C1 counterexample. -/
def C1state : SceneState :=
  { nodes := fun _ => {},
    leafs := fun i => if i = 0 then { current := some 0, parent := some (Inst.node 1) } else {},
    ress := fun i => if i = 0 then { name := "geo", rtype := "boxGeometry" } else {},
    fresh := 2 }

/-- State for the C10 witness: leaf 0 wraps resource 0 whose name is
empty. -/
def C10state : SceneState :=
  { nodes := fun _ => {},
    leafs := fun i => if i = 0 then { current := some 0, parent := none } else {},
    ress := fun _ => {},
    fresh := 1 }

end Scene

namespace Picking

/-- The handler table of a node, reduced to which of the three pointer
event kinds have a registered callback (callback bodies are opaque to the
engine; only presence matters for dispatch). -/
structure HandlerFlags where
  hover : Bool := false
  unhover : Bool := false
  click : Bool := false
deriving DecidableEq

/-- An intersected object: its uuid (the key of the hover/click caches)
and its `__handlers` table, absent when no handler prop was ever
applied. -/
structure PObj where
  uuid : Nat
  handlers : Option HandlerFlags := none
deriving DecidableEq

/-- A dispatched user callback: hover, unhover or click of a node. -/
inductive PEvent where
  | hoverE : Nat → PEvent
  | unhoverE : Nat → PEvent
  | clickE : Nat → PEvent
deriving DecidableEq

/-- `intersects.find(i => i.object === object)` and the `hovered` /
`clicked` cache checks use distinct comparisons; reference equality of
objects is modelled by structural equality of `PObj`. -/
def presentIn (n : PObj) (frame : List PObj) : Bool :=
  frame.any fun q => q == n

/-- One intersection handled by the `intersect` callback of `handleMove`
(src/index.js lines 273–283): objects without `__handlers` are skipped by
`intersect`; an object with a hover handler that is not yet in the
`hovered` cache (keyed by uuid) is cached and its hover handler fired. -/
def hoverStep (acc : List PObj × List PEvent) (o : PObj) : List PObj × List PEvent :=
  match o.handlers with
  | none => acc
  | some hl =>
      if hl.hover then
        if acc.1.any (fun q => q.uuid == o.uuid) then acc
        else (acc.1 ++ [o], acc.2 ++ [PEvent.hoverE o.uuid])
      else acc

/-- The intersection pass of `handleMove` over one frame. -/
def hoverPhase (hovered : List PObj) (frame : List PObj) : List PObj × List PEvent :=
  frame.foldl hoverStep (hovered, [])

/-- One entry of the `Object.values(hovered).forEach` pass (src/index.js
lines 288–293): a cached object that no longer occurs in the raw
intersection list (reference comparison) fires its unhover handler if
registered and is evicted from the cache (deletion by uuid). -/
def unhoverStep (frame : List PObj) (acc : List PObj × List PEvent) (o : PObj) :
    List PObj × List PEvent :=
  if frame.isEmpty || !(frame.any (fun q => q == o)) then
    (acc.1.filter (fun q => q.uuid != o.uuid),
     match o.handlers with
     | some hl => if hl.unhover then acc.2 ++ [PEvent.unhoverE o.uuid] else acc.2
     | none => acc.2)
  else acc

/-- `handleMove` for one pointer-move frame: the intersection pass
followed by the unhover sweep over the (snapshotted) cache values, with
the events of both passes in order. -/
def handleMove (hovered : List PObj) (frame : List PObj) : List PObj × List PEvent :=
  let ph := hoverPhase hovered frame
  let uh := ph.1.foldl (unhoverStep frame) (ph.1, [])
  (uh.1, ph.2 ++ uh.2)

/-- A sequence of pointer-move frames against a persistent hover cache:
the per-frame event lists. -/
def runFrames (hovered : List PObj) : List (List PObj) → List (List PEvent)
  | [] => []
  | f :: fs => (handleMove hovered f).2 :: runFrames (handleMove hovered f).1 fs

/-- Specification-side count of expected (hover, unhover) firings per
frame: hover exactly at a rising edge of the presence signal, unhover
exactly at a falling edge and only when an unhover handler is
registered. -/
def edgeCounts (unh : Bool) : Bool → List Bool → List (Nat × Nat)
  | _, [] => []
  | prev, b :: bs =>
      ((if b && !prev then 1 else 0),
       (if prev && !b then (if unh then 1 else 0) else 0)) :: edgeCounts unh b bs

/-- Number of cache entries carrying a given uuid. -/
def cntU (u : Nat) (l : List PObj) : Nat :=
  (l.filter fun q => q.uuid == u).length

/-- One intersection handled by the `intersect` callback of `onClick`
(src/index.js lines 315–322): objects without `__handlers` are skipped by
`intersect`; an object with a click handler whose uuid is not yet in the
`clicked` cache is cached and its click handler fired. -/
def clickStep (acc : List Nat × List PEvent) (o : PObj) : List Nat × List PEvent :=
  match o.handlers with
  | none => acc
  | some hl =>
      if hl.click && !(acc.1.contains o.uuid) then
        (acc.1 ++ [o.uuid], acc.2 ++ [PEvent.clickE o.uuid])
      else acc

/-- The `onClick` dispatch for one click event (src/index.js lines
313–323): a fresh `clicked` cache per event, independent of the hover
cache and of previous clicks. -/
def onClickRun (frame : List PObj) : List PEvent :=
  (frame.foldl clickStep (([] : List Nat), ([] : List PEvent))).2

/-- The node of the C5 witness: hover and unhover handlers registered. -/
def C5node : PObj :=
  { uuid := 7, handlers := some { hover := true, unhover := true, click := false } }

/-- The node of the C6 witness: a click handler registered. -/
def C6node : PObj :=
  { uuid := 9, handlers := some { hover := false, unhover := false, click := true } }

end Picking

namespace Subs

/-- `subscribe: fn => \x7b subscribers.push(fn); ... \x7d` (src/index.js
lines 205–208); callbacks are identified by numeric identity. -/
def subscribe (subs : List Nat) (fn : Nat) : List Nat :=
  subs ++ [fn]

/-- The closure returned by `subscribe`:
`subscribers = subscribers.filter(s => s === fn)` — note that `filter`
KEEPS the elements satisfying the predicate. -/
def unsubscribe (subs : List Nat) (fn : Nat) : List Nat :=
  subs.filter fun st => st == fn

end Subs


-- ===== Theorems =====

namespace Props

theorem jsEq_self (v : JVal) : jsEq v v = true := by
  cases v <;> simp [jsEq]

theorem lookup_self {p : PropMap} (hnd : (p.map Prod.fst).Nodup) :
    ∀ kv ∈ p, p.lookup kv.1 = some kv.2 := by
  induction p with
  | nil => intro kv hkv; cases hkv
  | cons hd tl ih =>
      obtain ⟨k1, v1⟩ := hd
      intro kv hkv
      rcases List.mem_cons.mp hkv with h | h
      · subst h
        simp [List.lookup]
      · have hk : kv.1 ≠ k1 := by
          intro he
          have hmem : kv.1 ∈ tl.map Prod.fst := List.mem_map_of_mem Prod.fst h
          rw [he] at hmem
          exact (List.nodup_cons.mp hnd).1 hmem
        have hbeq : (kv.1 == k1) = false := by
          simp [hk]
        have htl := ih (List.nodup_cons.mp hnd).2 kv h
        simp [List.lookup, hbeq, htl]

theorem filtered_nil_of_same {news olds : PropMap}
    (hsame : ∀ kv ∈ news, jsEq kv.2 (lookupProp olds kv.1) = true) :
    filteredPropsOf news olds = [] := by
  unfold filteredPropsOf
  rw [List.filter_eq_nil_iff]
  intro kv hkv
  simp [hsame kv hkv]

theorem applyProps_of_filtered_nil (h : Heap) (x : Nat) (news olds : PropMap)
    (hf : filteredPropsOf news olds = []) :
    applyProps h x news olds = ⟨h, [], none⟩ := by
  simp [applyProps, hf]

/-- Claim C3: `applyProps` is a no-op when the new prop map is empty, and
when every new prop is strictly equal to its old value; consequently
applying the same prop map a second time (with the first map as the old
props) changes nothing beyond the first application. -/
theorem C3_applyProps_noop_idempotent (h : Heap) (x : Nat) (news olds p : PropMap) :
    applyProps h x [] olds = ⟨h, [], none⟩
    ∧ ((∀ kv ∈ news, jsEq kv.2 (lookupProp olds kv.1) = true) →
        applyProps h x news olds = ⟨h, [], none⟩)
    ∧ ((p.map Prod.fst).Nodup →
        applyProps (applyProps h x p []).heap x p p
          = ⟨(applyProps h x p []).heap, [], none⟩) := by
  refine ⟨?_, ?_, ?_⟩
  · exact applyProps_of_filtered_nil h x [] olds rfl
  · intro hsame
    exact applyProps_of_filtered_nil h x news olds (filtered_nil_of_same hsame)
  · intro hnd
    apply applyProps_of_filtered_nil
    apply filtered_nil_of_same
    intro kv hkv
    rw [lookupProp, lookup_self hnd kv hkv]
    exact jsEq_self kv.2

/-- Closed witness for C3 at a concrete heap and prop map. -/
theorem C3_witness :
    (([("a", JVal.num 1)] : PropMap).map Prod.fst).Nodup
    ∧ applyProps (applyProps emptyHeap 0 [("a", JVal.num 1)] []).heap 0
        [("a", JVal.num 1)] [("a", JVal.num 1)]
      = ⟨(applyProps emptyHeap 0 [("a", JVal.num 1)] []).heap, [], none⟩ :=
  ⟨by decide,
   (C3_applyProps_noop_idempotent emptyHeap 0 [] [] [("a", JVal.num 1)]).2.2 (by decide)⟩

/-- Counterexample to claim C4 as stated: a handler prop changed
(`onClick` went from function 2 to function 1), yet `applyProps` leaves
the target untouched — the handler table is not rebuilt and no update
callback is invoked, because the rebuild is gated on the non-handler
mutation set being non-empty. -/
theorem C4_counterexample :
    jsEq (JVal.fn 1) (lookupProp [("onClick", JVal.fn 2)] "onClick") = false
    ∧ applyProps emptyHeap 0 [("onClick", JVal.fn 1)] [("onClick", JVal.fn 2)]
        = ⟨emptyHeap, [], none⟩
    ∧ (emptyHeap 0).handlers = none :=
  ⟨rfl, rfl, rfl⟩

/-- Claim C4, amended: the handler table is rebuilt (from all current
handler props, each key stripped of "on" and the next character
lower-cased) only when the filtered non-handler mutation set is non-empty
and at least one handler prop is present in the new props; a resulting
"update" entry is then invoked once with the target. -/
theorem C4_handler_rebuild_amended (h : Heap) (x : Nat) (news olds : PropMap) :
    (filteredPropsOf news olds = [] → applyProps h x news olds = ⟨h, [], none⟩)
    ∧ ((runWrites h x (filteredPropsOf news olds)).2 = none →
       filteredPropsOf news olds ≠ [] →
       handlersOf news ≠ [] →
       ((applyProps h x news olds).heap x).handlers
           = some (buildHandlerTable (handlersOf news))
       ∧ (∀ f, (buildHandlerTable (handlersOf news)).lookup "update" = some f →
            (applyProps h x news olds).calls = [Call.update f x])
       ∧ ((buildHandlerTable (handlersOf news)).lookup "update" = none →
            (applyProps h x news olds).calls = [])) := by
  constructor
  · exact applyProps_of_filtered_nil h x news olds
  · intro hw hf hh
    rcases hrw : runWrites h x (filteredPropsOf news olds) with ⟨h2, e⟩
    rw [hrw] at hw
    simp at hw
    subst hw
    have hfe : (filteredPropsOf news olds).isEmpty = false := by
      cases hfe2 : filteredPropsOf news olds with
      | nil => exact absurd hfe2 hf
      | cons a l => simp [List.isEmpty]
    have hhe : (handlersOf news).isEmpty = false := by
      cases hhe2 : handlersOf news with
      | nil => exact absurd hhe2 hh
      | cons a l => simp [List.isEmpty]
    refine ⟨?_, ?_, ?_⟩
    · cases hu : (buildHandlerTable (handlersOf news)).lookup "update" <;>
        simp [applyProps, hfe, hrw, hhe, hu, upd]
    · intro f hu
      simp [applyProps, hfe, hrw, hhe, hu]
    · intro hu
      simp [applyProps, hfe, hrw, hhe, hu]

/-- Closed witness for the amended C4 at a concrete input: the writes
succeed, both gate conditions hold, and the table is rebuilt. -/
theorem C4_witness :
    (runWrites emptyHeap 0 (filteredPropsOf C4news [])).2 = none
    ∧ filteredPropsOf C4news [] ≠ []
    ∧ handlersOf C4news ≠ []
    ∧ ((applyProps emptyHeap 0 C4news []).heap 0).handlers
        = some (buildHandlerTable (handlersOf C4news)) :=
  ⟨rfl, by decide, by decide,
   (((C4_handler_rebuild_amended emptyHeap 0 C4news []).2) rfl (by decide) (by decide)).1⟩

/-- Claim C8 (recorded against the code): on a prop map containing a good
prop followed by a dashed path whose intermediate segment is missing, the
run does raise a TypeError, but only after the earlier write has already
landed — a partial write, contradicting the claim that no partial write
may occur. -/
theorem C8_invalid_path_partial_write :
    (applyProps C8heap 0 [("foo", JVal.num 1), ("a-b-c", JVal.num 2)] []).err
        = some JErr.typeError
    ∧ ((applyProps C8heap 0 [("foo", JVal.num 1), ("a-b-c", JVal.num 2)] []).heap 0).fields.lookup "foo"
        = some (JVal.num 1)
    ∧ (C8heap 0).fields.lookup "foo" = some (JVal.num 0) :=
  ⟨rfl, rfl, rfl⟩

end Props

namespace Scene

theorem updF_apply {α : Type} (f : Nat → α) (i : Nat) (v : α) (j : Nat) :
    updF f i v j = if j = i then v else f j := rfl

/-- Claim C10: appending a DataLeaf whose underlying resource has a falsy
name leaves the whole state unchanged — no parent back-reference is set,
no field is written, no event happens. -/
theorem C10_append_falsy_name_noop (s : SceneState) (p : Option Inst) (lid r : Nat)
    (hcur : (s.leafs lid).current = some r) (hname : (s.ress r).name = "") :
    appendChild s p (Inst.leaf lid) = (s, []) := by
  simp [appendChild, hcur, hname]

/-- Closed witness for C10 at a concrete state. -/
theorem C10_witness :
    (C10state.leafs 0).current = some 0
    ∧ (C10state.ress 0).name = ""
    ∧ appendChild C10state (some (Inst.node 3)) (Inst.leaf 0) = (C10state, []) :=
  ⟨rfl, rfl, C10_append_falsy_name_noop C10state (some (Inst.node 3)) 0 0 rfl rfl⟩

/-- Reading the parent child list after a structural insertBefore: the
splice expression of the source, with the child parent-write applied
first. -/
theorem insertBefore_node_children (s : SceneState) (pid cid : Nat) (b : Inst) :
    (((insertBefore s (Inst.node pid) (Inst.node cid) b).1).nodes pid).children
      = ((updF s.nodes cid ({ s.nodes cid with parent := some (Inst.node pid) })) pid).children.take
          (jsNormIdx (jsIndexOf ((updF s.nodes cid ({ s.nodes cid with parent := some (Inst.node pid) })) pid).children b)
            ((updF s.nodes cid ({ s.nodes cid with parent := some (Inst.node pid) })) pid).children.length)
        ++ [Inst.node cid]
        ++ ((updF s.nodes cid ({ s.nodes cid with parent := some (Inst.node pid) })) pid).children.drop
          (jsNormIdx (jsIndexOf ((updF s.nodes cid ({ s.nodes cid with parent := some (Inst.node pid) })) pid).children b)
            ((updF s.nodes cid ({ s.nodes cid with parent := some (Inst.node pid) })) pid).children.length) := by
  simp [insertBefore, updF_apply]

/-- Claim C2: `insertBefore(parent, X, Y)` on structural children
`[A, Y, C]` splices the new child right before the reference child,
yielding exactly `[A, X, Y, C]`. -/
theorem C2_insertBefore_order (s : SceneState) (pid a y c x : Nat)
    (hch : (s.nodes pid).children = [Inst.node a, Inst.node y, Inst.node c])
    (hya : y ≠ a)
    (hx : Inst.node x ∉ (s.nodes pid).children) :
    (((insertBefore s (Inst.node pid) (Inst.node x) (Inst.node y)).1).nodes pid).children
      = [Inst.node a, Inst.node x, Inst.node y, Inst.node c] := by
  have hch1 :
      ((updF s.nodes x ({ s.nodes x with parent := some (Inst.node pid) })) pid).children
        = [Inst.node a, Inst.node y, Inst.node c] := by
    rw [updF_apply]
    by_cases hpx : pid = x
    · subst hpx
      simpa using hch
    · simpa [hpx] using hch
  have hbeq1 : (Inst.node a == Inst.node y) = false := by
    simp [hya.symm]
  rw [insertBefore_node_children, hch1]
  simp [jsIndexOf, List.findIdx?_cons, hbeq1, jsNormIdx]

/-- Closed witness for C2 at a concrete state. -/
theorem C2_witness :
    (C2state.nodes 0).children = [Inst.node 1, Inst.node 2, Inst.node 3]
    ∧ (2 : Nat) ≠ 1
    ∧ Inst.node 9 ∉ (C2state.nodes 0).children
    ∧ (((insertBefore C2state (Inst.node 0) (Inst.node 9) (Inst.node 2)).1).nodes 0).children
        = [Inst.node 1, Inst.node 9, Inst.node 2, Inst.node 3] :=
  ⟨rfl, by decide, by decide,
   C2_insertBefore_order C2state 0 1 2 3 9 rfl (by decide) (by decide)⟩

end Scene

namespace Scene

/-- Counterexample to claim C1 as stated: the construction-argument list
changed in length (it shrank from `[5]` to `[]`), yet `commitUpdate`
performs no `createInstance` and no `removeChild` call at all (the event
list is empty) and the placeholder keeps its old underlying reference —
the trigger `argsNew.some(...)` only inspects positions of the new list,
so a pure shrink is not detected. -/
theorem C1_counterexample :
    ([] : List Int) ≠ [5]
    ∧ reinstCond [] [5] = false
    ∧ (commitUpdate C1state (fun _ => false) (Inst.leaf 0)
        { args := [5] } { args := [] }).2 = []
    ∧ (commitUpdate C1state (fun _ => false) (Inst.leaf 0)
        { args := [5] } { args := [] }).1.leafs 0 = C1state.leafs 0 :=
  ⟨by decide, by decide, rfl, by decide⟩

/-- Claim C1, amended: whenever the code's trigger fires — some position
of the NEW argument list differs from the old one (length growth
included, pure shrinks excluded) — `commitUpdate` on a DataLeaf makes
exactly one `createInstance` call, exactly one `removeChild` call and
exactly one `appendChild` call, allocates exactly one replacement
resource, and overwrites the placeholder's `current` and `parent` fields
in place: the same placeholder id now exposes the new resource, every
other placeholder is untouched, and no SceneNode changes. -/
theorem C1_reinstantiation_amended (s : SceneState) (reg : String → Bool)
    (lid r : Nat) (p : Inst) (oldProps newProps : SProps)
    (hcur : (s.leafs lid).current = some r)
    (hpar : (s.leafs lid).parent = some p)
    (hreg : reg ((s.ress r).rtype) = false)
    (hcond : reinstCond newProps.args oldProps.args = true)
    (hlid : lid ≠ s.fresh + 1) :
    (((commitUpdate s reg (Inst.leaf lid) oldProps newProps).2.filter SEvent.isCreated).length = 1
      ∧ ((commitUpdate s reg (Inst.leaf lid) oldProps newProps).2.filter SEvent.isRemoved).length = 1
      ∧ ((commitUpdate s reg (Inst.leaf lid) oldProps newProps).2.filter SEvent.isAppended).length = 1)
    ∧ ((commitUpdate s reg (Inst.leaf lid) oldProps newProps).1.leafs lid).current = some s.fresh
    ∧ ((commitUpdate s reg (Inst.leaf lid) oldProps newProps).1.leafs lid).parent
        = (if newProps.name.getD "" = "" then none else some p)
    ∧ (commitUpdate s reg (Inst.leaf lid) oldProps newProps).1.ress s.fresh
        = { name := newProps.name.getD "", rtype := (s.ress r).rtype }
    ∧ (∀ l : Nat, l ≠ lid → l ≠ s.fresh + 1 →
        (commitUpdate s reg (Inst.leaf lid) oldProps newProps).1.leafs l = s.leafs l)
    ∧ (∀ n : Nat, (commitUpdate s reg (Inst.leaf lid) oldProps newProps).1.nodes n = s.nodes n) := by
  have hlid2 : s.fresh + 1 ≠ lid := fun h => hlid h.symm
  by_cases hn : newProps.name.getD "" = ""
  · refine ⟨⟨?_, ?_, ?_⟩, ?_, ?_, ?_, ?_, ?_⟩ <;>
      simp [commitUpdate, createInstance, removeChild, appendChild,
        updF, hcur, hpar, hreg, hcond, hlid, hlid2, hn, SEvent.isCreated,
        SEvent.isRemoved, SEvent.isAppended]
    · intro l hl1 hl2
      simp [hl1, hl2]
  · refine ⟨⟨?_, ?_, ?_⟩, ?_, ?_, ?_, ?_, ?_⟩ <;>
      simp [commitUpdate, createInstance, removeChild, appendChild,
        updF, hcur, hpar, hreg, hcond, hlid, hlid2, hn, SEvent.isCreated,
        SEvent.isRemoved, SEvent.isAppended]
    · intro l hl1 hl2
      simp [hl1, hl2]

theorem invN_updF {f : Nat → NodeData}
    (h : ∀ nid : Nat, ∀ ch ∈ (f nid).children, ch.isNode = true)
    (i : Nat) (nd : NodeData) (hnd : ∀ ch ∈ nd.children, ch.isNode = true) :
    ∀ nid : Nat, ∀ ch ∈ ((updF f i nd) nid).children, ch.isNode = true := by
  intro nid ch hch
  rw [updF_apply] at hch
  split at hch
  · exact hnd ch hch
  · exact h nid ch hch

theorem childrenInv_threeAdd {s : SceneState} (pid cid : Nat) (h : childrenInv s) :
    childrenInv (threeAdd s pid cid) := by
  have hstore :
      ∀ (f : Nat → NodeData),
        (∀ nid : Nat, ∀ ch ∈ (f nid).children, ch.isNode = true) →
        ∀ nid : Nat,
          ∀ ch ∈ ((updF (updF f cid ({ f cid with parent := some (Inst.node pid) })) pid
              ({ (updF f cid ({ f cid with parent := some (Inst.node pid) })) pid with
                  children :=
                    ((updF f cid ({ f cid with parent := some (Inst.node pid) })) pid).children
                      ++ [Inst.node cid] })) nid).children,
            ch.isNode = true := by
    intro f hf
    apply invN_updF
    · apply invN_updF hf
      intro ch hch
      exact hf cid ch hch
    · intro ch hch
      rcases List.mem_append.mp hch with h1 | h1
      · apply invN_updF hf cid _ _ pid ch h1
        intro ch2 hch2
        exact hf cid ch2 hch2
      · rcases List.mem_singleton.mp h1 with rfl
        rfl
  unfold threeAdd
  rcases hp : (s.nodes cid).parent with _ | pi
  · simp only [hp]
    exact hstore s.nodes h
  · rcases pi with q | q
    · simp only [hp]
      apply hstore
      intro nid ch hch
      rw [updF_apply] at hch
      split at hch
      · exact h q ch (List.mem_of_mem_erase hch)
      · exact h nid ch hch
    · simp only [hp]
      exact hstore s.nodes h

theorem mem_children_updF {f : Nat → NodeData} {i : Nat} {nd : NodeData} {nid : Nat} {ch : Inst}
    (hch : ch ∈ ((updF f i nd) nid).children) : ch ∈ nd.children ∨ ch ∈ (f nid).children := by
  rw [updF_apply] at hch
  split at hch
  · exact Or.inl hch
  · exact Or.inr hch

theorem childrenInv_threeRemove {s : SceneState} (pid cid : Nat) (h : childrenInv s) :
    childrenInv (threeRemove s pid cid) := by
  unfold threeRemove
  split
  · intro nid ch hch
    dsimp only at hch
    rcases mem_children_updF hch with h1 | h1
    · dsimp only at h1
      rcases mem_children_updF h1 with h2 | h2
      · exact h pid ch (List.mem_of_mem_erase h2)
      · exact h cid ch h2
    · rcases mem_children_updF h1 with h2 | h2
      · exact h pid ch (List.mem_of_mem_erase h2)
      · exact h nid ch h2
  · exact h

theorem childrenInv_createInstance {s : SceneState} (reg : String → Bool)
    (t : String) (props : SProps) (h : childrenInv s) :
    childrenInv (createInstance s reg t props).1 := by
  unfold createInstance
  split
  · intro nid ch hch
    dsimp only at hch
    rcases mem_children_updF hch with h1 | h1
    · cases h1
    · exact h nid ch h1
  · exact h

theorem childrenInv_appendChild {s : SceneState} (p : Option Inst) (c : Inst)
    (h : childrenInv s) :
    childrenInv (appendChild s p c).1 := by
  rcases c with cid | lid
  · rcases p with _ | pi
    · exact h
    · rcases pi with pid | pid
      · exact childrenInv_threeAdd pid cid h
      · exact h
  · unfold appendChild
    dsimp only
    rcases hc : (s.leafs lid).current with _ | r
    · exact h
    · dsimp only
      split
      · split
        · intro nid ch hch
          dsimp only at hch
          exact h nid ch hch
        · intro nid ch hch
          dsimp only at hch
          exact h nid ch hch
      · exact h

theorem childrenInv_removeChild {s : SceneState} (p : Option Inst) (c : Inst)
    (h : childrenInv s) :
    childrenInv (removeChild s p c).1 := by
  rcases c with cid | lid
  · rcases p with _ | pi
    · exact h
    · rcases pi with pid | pid
      · exact childrenInv_threeRemove pid cid h
      · exact h
  · exact h

theorem childrenInv_insertBefore {s : SceneState} (p c b : Inst)
    (h : childrenInv s) :
    childrenInv (insertBefore s p c b).1 := by
  rcases c with cid | lid
  · have h1 : childrenInv
        { s with nodes := updF s.nodes cid ({ s.nodes cid with parent := some p }) } := by
      intro nid ch hch
      dsimp only at hch
      rcases mem_children_updF hch with h2 | h2
      · exact h cid ch h2
      · exact h nid ch h2
    rcases p with pid | pid
    · intro nid ch hch
      dsimp only [insertBefore] at hch
      rcases mem_children_updF hch with h2 | h2
      · dsimp only at h2
        rcases List.mem_append.mp h2 with h3 | h3
        · rcases List.mem_append.mp h3 with h4 | h4
          · exact h1 pid ch (List.mem_of_mem_take h4)
          · rcases List.mem_singleton.mp h4 with rfl
            rfl
        · exact h1 pid ch (List.mem_of_mem_drop h3)
      · exact h1 nid ch h2
    · exact h1
  · exact h

theorem childrenInv_commitUpdate {s : SceneState} (reg : String → Bool) (i : Inst)
    (oldProps newProps : SProps) (h : childrenInv s) :
    childrenInv (commitUpdate s reg i oldProps newProps).1 := by
  rcases i with nid | lid
  · intro nid2 ch hch
    dsimp only [commitUpdate] at hch
    rcases mem_children_updF hch with h1 | h1
    · exact h nid ch h1
    · exact h nid2 ch h1
  · unfold commitUpdate
    dsimp only
    split
    · rcases hc : (s.leafs lid).current with _ | rOld
      · exact h
      · have h1 := childrenInv_createInstance reg ((s.ress rOld).rtype) newProps h
        have h2 := childrenInv_removeChild (s.leafs lid).parent (Inst.leaf lid) h1
        have h3 := childrenInv_appendChild (s.leafs lid).parent
          (createInstance s reg ((s.ress rOld).rtype) newProps).2.1 h2
        intro nid ch hch
        dsimp only at hch
        exact h3 nid ch hch
    · rcases hc : (s.leafs lid).current with _ | r
      · exact h
      · intro nid ch hch
        dsimp only at hch
        exact h nid ch hch

theorem childrenInv_stepOp {s : SceneState} (reg : String → Bool) (op : AdapterOp)
    (h : childrenInv s) :
    childrenInv (stepOp reg s op) := by
  rcases op with ⟨t, props⟩ | ⟨p, c⟩ | ⟨p, c, b⟩ | ⟨p, c⟩ | ⟨i, o, n⟩
  · exact childrenInv_createInstance reg t props h
  · exact childrenInv_appendChild p c h
  · exact childrenInv_insertBefore p c b h
  · exact childrenInv_removeChild p c h
  · exact childrenInv_commitUpdate reg i o n h

/-- Claim C9: over every sequence of reconciliation-adapter operations
from the empty scene, no DataLeaf placeholder ever becomes a member of
any SceneNode structural child list — every child-list element is a
SceneNode. -/
theorem C9_leaf_never_in_children (reg : String → Bool) (ops : List AdapterOp) :
    childrenInv (ops.foldl (stepOp reg) initState) := by
  have hinit : childrenInv initState := by
    intro nid ch hch
    simp [initState] at hch
  suffices hgen : ∀ (l : List AdapterOp) (s : SceneState),
      childrenInv s → childrenInv (l.foldl (stepOp reg) s) from
    hgen ops initState hinit
  intro l
  induction l with
  | nil => intro s hs; exact hs
  | cons op rest ih =>
      intro s hs
      exact ih _ (childrenInv_stepOp reg op hs)

/-- Closed witness for the amended C1 at a concrete input: one argument
changed in place, and the placeholder at id 0 ends up exposing the
freshly allocated resource. -/
theorem C1_witness :
    (C1state.leafs 0).current = some 0
    ∧ (C1state.leafs 0).parent = some (Inst.node 1)
    ∧ (fun _ => false : String → Bool) ((C1state.ress 0).rtype) = false
    ∧ reinstCond ({ args := [6], name := some "geo" } : SProps).args
        ({ args := [5] } : SProps).args = true
    ∧ (0 : Nat) ≠ C1state.fresh + 1
    ∧ ((commitUpdate C1state (fun _ => false) (Inst.leaf 0) { args := [5] }
          { args := [6], name := some "geo" }).1.leafs 0).current = some C1state.fresh :=
  ⟨rfl, rfl, rfl, by decide, by decide,
   (C1_reinstantiation_amended C1state (fun _ => false) 0 0 (Inst.node 1)
      { args := [5] } { args := [6], name := some "geo" } rfl rfl rfl
      (by decide) (by decide)).2.1⟩

end Scene

namespace Picking

theorem cntU_nil (u : Nat) : cntU u [] = 0 := rfl

theorem cntU_cons (u : Nat) (o : PObj) (l : List PObj) :
    cntU u (o :: l) = (if o.uuid == u then 1 else 0) + cntU u l := by
  by_cases ho : (o.uuid == u) = true
  · simp [cntU, List.filter_cons, ho, Nat.add_comm]
  · simp [cntU, List.filter_cons, ho]

theorem cntU_append_single (u : Nat) (l : List PObj) (o : PObj) :
    cntU u (l ++ [o]) = cntU u l + (if o.uuid == u then 1 else 0) := by
  by_cases ho : (o.uuid == u) = true
  · simp [cntU, List.filter_append, List.filter_cons, ho]
  · simp [cntU, List.filter_append, List.filter_cons, ho]

theorem anyU_false_iff (u : Nat) (l : List PObj) :
    (l.any fun q => q.uuid == u) = false ↔ cntU u l = 0 := by
  simp [List.any_eq_false, cntU, List.length_eq_zero, List.filter_eq_nil_iff]

theorem cntU_filter_ne (u v : Nat) (hne : v ≠ u) (l : List PObj) :
    cntU u (l.filter fun q => q.uuid != v) = cntU u l := by
  induction l with
  | nil => rfl
  | cons o l ih =>
      by_cases ho : o.uuid = u
      · have h1 : (o.uuid != v) = true := by
          simp [ho]
          exact fun he => hne he.symm
        simp only [List.filter_cons, h1, if_pos]
        rw [cntU_cons, cntU_cons, ih]
      · have h2 : (o.uuid == u) = false := by simp [ho]
        by_cases hv : (o.uuid != v) = true
        · simp only [List.filter_cons, hv, if_pos]
          rw [cntU_cons, cntU_cons, ih]
        · simp only [List.filter_cons, hv, if_false, Bool.false_eq_true]
          rw [ih, cntU_cons, h2]
          simp

theorem count_append_event (e e' : PEvent) (l : List PEvent) (hne : (e' == e) = false) :
    (l ++ [e']).count e = l.count e := by
  simp [List.count_append, List.count_cons, hne]

theorem hoverFold_count_unhover (u : Nat) :
    ∀ (frame : List PObj) (acc : List PObj × List PEvent),
      ((frame.foldl hoverStep acc).2).count (PEvent.unhoverE u)
        = acc.2.count (PEvent.unhoverE u) := by
  intro frame
  induction frame with
  | nil => intro acc; rfl
  | cons o rest ih =>
      intro acc
      rw [List.foldl_cons, ih]
      unfold hoverStep
      rcases o.handlers with _ | hl
      · rfl
      · by_cases hh : hl.hover = true
        · by_cases ha : (acc.1.any fun q => q.uuid == o.uuid) = true
          · simp [hh, ha]
          · simp only [hh, ha, if_true, if_false, Bool.false_eq_true]
            simp [count_append_event]
        · simp [hh]

theorem unhoverFold_count_hover (u : Nat) (frame : List PObj) :
    ∀ (todo : List PObj) (acc : List PObj × List PEvent),
      ((todo.foldl (unhoverStep frame) acc).2).count (PEvent.hoverE u)
        = acc.2.count (PEvent.hoverE u) := by
  intro todo
  induction todo with
  | nil => intro acc; rfl
  | cons o rest ih =>
      intro acc
      rw [List.foldl_cons, ih]
      unfold unhoverStep
      split
      · rcases o.handlers with _ | hl
        · rfl
        · by_cases hu : hl.unhover = true
          · simp [hu, count_append_event]
          · simp [hu]
      · rfl

theorem count_append_self (e : PEvent) (l : List PEvent) :
    (l ++ [e]).count e = l.count e + 1 := by
  simp [List.count_append, List.count_cons]

theorem hoverFold_spec (n : PObj) (hl : HandlerFlags)
    (hn : n.handlers = some hl) (hh : hl.hover = true) :
    ∀ (frame : List PObj) (acc : List PObj × List PEvent),
      (∀ o ∈ frame, o.uuid = n.uuid → o = n) →
      ((frame.foldl hoverStep acc).2.count (PEvent.hoverE n.uuid)
          = acc.2.count (PEvent.hoverE n.uuid)
            + (if presentIn n frame && (cntU n.uuid acc.1 == 0) then 1 else 0))
      ∧ (cntU n.uuid (frame.foldl hoverStep acc).1
          = cntU n.uuid acc.1
            + (if presentIn n frame && (cntU n.uuid acc.1 == 0) then 1 else 0))
      ∧ (∀ o ∈ (frame.foldl hoverStep acc).1, o ∈ acc.1 ∨ o ∈ frame) := by
  intro frame
  induction frame with
  | nil =>
      intro acc hwf
      refine ⟨by simp [presentIn], by simp [presentIn], fun o ho => Or.inl ho⟩
  | cons o rest ih =>
      intro acc hwf
      have hwfr : ∀ q ∈ rest, q.uuid = n.uuid → q = n :=
        fun q hq => hwf q (List.mem_cons_of_mem o hq)
      rw [List.foldl_cons]
      by_cases hu : o.uuid = n.uuid
      · have hon : o = n := hwf o (List.mem_cons_self o rest) hu
        subst hon
        have hpr : presentIn o (o :: rest) = true := by
          simp [presentIn, List.any_cons]
        by_cases ha : (acc.1.any fun q => q.uuid == o.uuid) = true
        · have hstep : hoverStep acc o = acc := by
            simp [hoverStep, hn, hh, ha]
          have hcnt : cntU o.uuid acc.1 ≠ 0 := by
            intro h0
            have hfa := (anyU_false_iff o.uuid acc.1).mpr h0
            simp [hfa] at ha
          have hif : (cntU o.uuid acc.1 == 0) = false := by
            simpa using hcnt
          obtain ⟨ih1, ih2, ih3⟩ := ih acc hwfr
          rw [hstep]
          refine ⟨?_, ?_, ?_⟩
          · rw [ih1, hif, hpr]
            simp
          · rw [ih2, hif, hpr]
            simp
          · intro q hq
            rcases ih3 q hq with h1 | h1
            · exact Or.inl h1
            · exact Or.inr (List.mem_cons_of_mem o h1)
        · have hstep : hoverStep acc o = (acc.1 ++ [o], acc.2 ++ [PEvent.hoverE o.uuid]) := by
            simp [hoverStep, hn, hh, ha]
          have hcnt0 : cntU o.uuid acc.1 = 0 := by
            rw [← anyU_false_iff]
            exact Bool.not_eq_true _ ▸ (eq_false_of_ne_true ha)
          have hcnt1 : cntU o.uuid (acc.1 ++ [o]) = 1 := by
            rw [cntU_append_single, hcnt0]
            simp
          have hif1 : (cntU o.uuid (acc.1 ++ [o]) == 0) = false := by
            rw [hcnt1]
            rfl
          obtain ⟨ih1, ih2, ih3⟩ := ih (acc.1 ++ [o], acc.2 ++ [PEvent.hoverE o.uuid]) hwfr
          rw [hstep]
          refine ⟨?_, ?_, ?_⟩
          · rw [ih1, hif1, count_append_self, hcnt0, hpr]
            simp
          · rw [ih2, hif1, hcnt1, hcnt0, hpr]
            simp
          · intro q hq
            rcases ih3 q hq with h1 | h1
            · rcases List.mem_append.mp h1 with h2 | h2
              · exact Or.inl h2
              · rcases List.mem_singleton.mp h2 with rfl
                exact Or.inr (List.mem_cons_self _ _)
            · exact Or.inr (List.mem_cons_of_mem o h1)
      · have hne : (o == n) = false := by
          simp only [beq_eq_false_iff_ne, ne_eq]
          intro he
          exact hu (by rw [he])
        have hpr : presentIn n (o :: rest) = presentIn n rest := by
          simp [presentIn, List.any_cons, hne]
        have huB : (o.uuid == n.uuid) = false := by
          simpa using hu
        have hstep2 :
            hoverStep acc o = acc
            ∨ hoverStep acc o = (acc.1 ++ [o], acc.2 ++ [PEvent.hoverE o.uuid]) := by
          unfold hoverStep
          rcases o.handlers with _ | h2
          · exact Or.inl rfl
          · by_cases h2h : h2.hover = true
            · by_cases ha : (acc.1.any fun q => q.uuid == o.uuid) = true
              · simp [h2h, ha]
              · simp [h2h, ha]
            · simp [h2h]
        rcases hstep2 with hstep | hstep
        · rw [hstep, hpr]
          obtain ⟨ih1, ih2, ih3⟩ := ih acc hwfr
          refine ⟨ih1, ih2, ?_⟩
          intro q hq
          rcases ih3 q hq with h1 | h1
          · exact Or.inl h1
          · exact Or.inr (List.mem_cons_of_mem o h1)
        · rw [hstep, hpr]
          have hcntkeep : cntU n.uuid (acc.1 ++ [o]) = cntU n.uuid acc.1 := by
            rw [cntU_append_single, huB]
            simp
          have hevkeep :
              (acc.2 ++ [PEvent.hoverE o.uuid]).count (PEvent.hoverE n.uuid)
                = acc.2.count (PEvent.hoverE n.uuid) := by
            apply count_append_event
            simp [hu]
          obtain ⟨ih1, ih2, ih3⟩ := ih (acc.1 ++ [o], acc.2 ++ [PEvent.hoverE o.uuid]) hwfr
          refine ⟨?_, ?_, ?_⟩
          · rw [ih1]
            dsimp only
            rw [hevkeep, hcntkeep]
          · rw [ih2]
            dsimp only
            rw [hcntkeep]
          · intro q hq
            rcases ih3 q hq with h1 | h1
            · rcases List.mem_append.mp h1 with h2 | h2
              · exact Or.inl h2
              · rcases List.mem_singleton.mp h2 with rfl
                exact Or.inr (List.mem_cons_self _ _)
            · exact Or.inr (List.mem_cons_of_mem o h1)

theorem unhoverCond_eq (n : PObj) (frame : List PObj) :
    (frame.isEmpty || !(frame.any fun q => q == n)) = !(presentIn n frame) := by
  cases frame with
  | nil => simp [presentIn]
  | cons a l => simp [presentIn]

theorem cntU_filter_self (u : Nat) (l : List PObj) :
    cntU u (l.filter fun q => q.uuid != u) = 0 := by
  rw [cntU, List.length_eq_zero, List.filter_eq_nil_iff]
  intro a ha
  have h2 := (List.mem_filter.mp ha).2
  simpa using h2

theorem unhoverFold_spec (n : PObj) (hl : HandlerFlags)
    (hn : n.handlers = some hl) (frame : List PObj) :
    ∀ (todo : List PObj) (acc : List PObj × List PEvent),
      (∀ o ∈ todo, o.uuid = n.uuid → o = n) →
      ((todo.foldl (unhoverStep frame) acc).2.count (PEvent.unhoverE n.uuid)
          = acc.2.count (PEvent.unhoverE n.uuid)
            + (if presentIn n frame then 0
               else if hl.unhover then cntU n.uuid todo else 0))
      ∧ (cntU n.uuid (todo.foldl (unhoverStep frame) acc).1
          = (if presentIn n frame then cntU n.uuid acc.1
             else if cntU n.uuid todo == 0 then cntU n.uuid acc.1 else 0))
      ∧ (∀ o ∈ (todo.foldl (unhoverStep frame) acc).1, o ∈ acc.1) := by
  intro todo
  induction todo with
  | nil =>
      intro acc hwf
      refine ⟨by simp [cntU], by simp [cntU], fun o ho => ho⟩
  | cons o rest ih =>
      intro acc hwf
      have hwfr : ∀ q ∈ rest, q.uuid = n.uuid → q = n :=
        fun q hq => hwf q (List.mem_cons_of_mem o hq)
      rw [List.foldl_cons]
      by_cases hu : o.uuid = n.uuid
      · have hon : o = n := hwf o (List.mem_cons_self o rest) hu
        subst hon
        by_cases hp : presentIn o frame = true
        · have hstep : unhoverStep frame acc o = acc := by
            unfold unhoverStep
            rw [unhoverCond_eq, hp]
            simp
          rw [hstep]
          obtain ⟨ih1, ih2, ih3⟩ := ih acc hwfr
          exact ⟨by rw [ih1, hp]; simp, by rw [ih2, hp]; simp [hp], ih3⟩
        · have hpf : presentIn o frame = false := eq_false_of_ne_true hp
          have hstep : unhoverStep frame acc o
              = (acc.1.filter (fun q => q.uuid != o.uuid),
                 if hl.unhover then acc.2 ++ [PEvent.unhoverE o.uuid] else acc.2) := by
            unfold unhoverStep
            rw [unhoverCond_eq, hpf, hn]
            simp
          rw [hstep]
          obtain ⟨ih1, ih2, ih3⟩ :=
            ih (acc.1.filter (fun q => q.uuid != o.uuid),
                if hl.unhover then acc.2 ++ [PEvent.unhoverE o.uuid] else acc.2) hwfr
          have hcntf : cntU o.uuid (acc.1.filter fun q => q.uuid != o.uuid) = 0 :=
            cntU_filter_self o.uuid acc.1
          refine ⟨?_, ?_, ?_⟩
          · rw [ih1, hpf]
            by_cases hunh : hl.unhover = true
            · simp only [hunh, if_true, hpf, Bool.false_eq_true, if_false]
              rw [count_append_self, cntU_cons]
              simp only [beq_self_eq_true, if_true]
              omega
            · simp [hunh, hpf]
          · rw [ih2, hpf]
            simp only [hpf, hcntf]
            rw [cntU_cons]
            simp
          · intro q hq
            exact List.mem_of_mem_filter (ih3 q hq)
      · have huB : (o.uuid == n.uuid) = false := by simpa using hu
        have hkey :
            cntU n.uuid (unhoverStep frame acc o).1 = cntU n.uuid acc.1
            ∧ (unhoverStep frame acc o).2.count (PEvent.unhoverE n.uuid)
                = acc.2.count (PEvent.unhoverE n.uuid)
            ∧ ∀ q ∈ (unhoverStep frame acc o).1, q ∈ acc.1 := by
          unfold unhoverStep
          split
          · refine ⟨cntU_filter_ne n.uuid o.uuid hu acc.1, ?_, ?_⟩
            · rcases ho2 : o.handlers with _ | h2
              · rfl
              · by_cases h2u : h2.unhover = true
                · simp only [h2u, if_true]
                  apply count_append_event
                  simp [hu]
                · simp [h2u]
            · intro q hq
              exact List.mem_of_mem_filter hq
          · exact ⟨rfl, rfl, fun q hq => hq⟩
        obtain ⟨ih1, ih2, ih3⟩ := ih (unhoverStep frame acc o) hwfr
        have hcr : cntU n.uuid (o :: rest) = cntU n.uuid rest := by
          rw [cntU_cons, huB]
          simp
        refine ⟨?_, ?_, ?_⟩
        · rw [ih1, hkey.2.1, hcr]
        · rw [ih2, hkey.1, hcr]
        · intro q hq
          exact hkey.2.2 q (ih3 q hq)

theorem handleMove_spec (n : PObj) (hl : HandlerFlags)
    (hn : n.handlers = some hl) (hh : hl.hover = true)
    (hov frame : List PObj) (prev : Bool)
    (hwfh : ∀ o ∈ hov, o.uuid = n.uuid → o = n)
    (hwff : ∀ o ∈ frame, o.uuid = n.uuid → o = n)
    (hc : cntU n.uuid hov = if prev then 1 else 0) :
    ((handleMove hov frame).2.count (PEvent.hoverE n.uuid)
        = if presentIn n frame && !prev then 1 else 0)
    ∧ ((handleMove hov frame).2.count (PEvent.unhoverE n.uuid)
        = if prev && !(presentIn n frame) then (if hl.unhover then 1 else 0) else 0)
    ∧ (cntU n.uuid (handleMove hov frame).1 = if presentIn n frame then 1 else 0)
    ∧ (∀ o ∈ (handleMove hov frame).1, o.uuid = n.uuid → o = n) := by
  obtain ⟨ha1, ha2, ha3⟩ := hoverFold_spec n hl hn hh frame (hov, []) hwff
  have hwfp : ∀ o ∈ (frame.foldl hoverStep (hov, [])).1, o.uuid = n.uuid → o = n := by
    intro o ho
    rcases ha3 o ho with h1 | h1
    · exact hwfh o h1
    · exact hwff o h1
  obtain ⟨hb1, hb2, hb3⟩ := unhoverFold_spec n hl hn frame
      (frame.foldl hoverStep (hov, [])).1
      ((frame.foldl hoverStep (hov, [])).1, []) hwfp
  have e2eq : (handleMove hov frame).2
      = (frame.foldl hoverStep (hov, [])).2
        ++ ((frame.foldl hoverStep (hov, [])).1.foldl (unhoverStep frame)
              ((frame.foldl hoverStep (hov, [])).1, [])).2 := rfl
  have e1eq : (handleMove hov frame).1
      = ((frame.foldl hoverStep (hov, [])).1.foldl (unhoverStep frame)
            ((frame.foldl hoverStep (hov, [])).1, [])).1 := rfl
  have hph0 : ((frame.foldl hoverStep (hov, [])).2).count (PEvent.unhoverE n.uuid) = 0 := by
    rw [hoverFold_count_unhover]
    rfl
  have huh0 : (((frame.foldl hoverStep (hov, [])).1).foldl (unhoverStep frame)
      ((frame.foldl hoverStep (hov, [])).1, [])).2.count (PEvent.hoverE n.uuid) = 0 := by
    rw [unhoverFold_count_hover]
    rfl
  dsimp only at ha1 ha2 hb1 hb2
  refine ⟨?_, ?_, ?_, ?_⟩
  · rw [e2eq, List.count_append, huh0, Nat.add_zero, ha1, List.count_nil, Nat.zero_add]
    cases prev
    · simp only [Bool.false_eq_true, if_false] at hc
      have hz : (cntU n.uuid hov == 0) = true := by simp [hc]
      simp [hz]
    · simp only [if_pos] at hc
      have hz : (cntU n.uuid hov == 0) = false := by simp [hc]
      simp [hz]
  · rw [e2eq, List.count_append, hph0, Nat.zero_add, hb1, List.count_nil, Nat.zero_add, ha2]
    cases hpres2 : presentIn n frame
    · cases prev
      · simp only [Bool.false_eq_true, if_false] at hc
        simp [hpres2, hc]
      · simp only [if_pos] at hc
        simp [hpres2, hc]
    · simp [hpres2]
  · rw [e1eq, hb2, ha2]
    cases hpres2 : presentIn n frame
    · cases prev
      · simp only [Bool.false_eq_true, if_false] at hc
        simp [hpres2, hc]
      · simp only [if_pos] at hc
        simp [hpres2, hc]
    · cases prev
      · simp only [Bool.false_eq_true, if_false] at hc
        simp [hpres2, hc]
      · simp only [if_pos] at hc
        simp [hpres2, hc]
  · intro o ho
    rw [e1eq] at ho
    exact hwfp o (hb3 o ho)

theorem runFrames_spec (n : PObj) (hl : HandlerFlags)
    (hn : n.handlers = some hl) (hh : hl.hover = true) :
    ∀ (frames : List (List PObj)) (hov : List PObj) (prev : Bool),
      (∀ f ∈ frames, ∀ o ∈ f, o.uuid = n.uuid → o = n) →
      (∀ o ∈ hov, o.uuid = n.uuid → o = n) →
      cntU n.uuid hov = (if prev then 1 else 0) →
      (runFrames hov frames).map
          (fun evs => (evs.count (PEvent.hoverE n.uuid), evs.count (PEvent.unhoverE n.uuid)))
        = edgeCounts hl.unhover prev (frames.map fun f => presentIn n f) := by
  intro frames
  induction frames with
  | nil => intro hov prev h1 h2 h3; rfl
  | cons f fs ih =>
      intro hov prev hwff hwfh hc
      have hm := handleMove_spec n hl hn hh hov f prev hwfh
        (hwff f (List.mem_cons_self f fs)) hc
      have htail := ih (handleMove hov f).1 (presentIn n f)
        (fun g hg => hwff g (List.mem_cons_of_mem f hg)) hm.2.2.2 hm.2.2.1
      simp only [runFrames, List.map_cons, edgeCounts]
      rw [hm.1, hm.2.1, htail]

/-- Claim C5: over any sequence of pointer-move frames, for a node with a
registered hover handler, the hover handler fires exactly once at each
rising edge of its presence in the filtered intersection list (not again
on consecutive present frames) and the unhover handler fires exactly once
at each falling edge, and only when an unhover handler is registered —
the per-frame (hover, unhover) firing counts are exactly `edgeCounts`. -/
theorem C5_hover_state_machine (n : PObj) (hl : HandlerFlags)
    (hn : n.handlers = some hl) (hh : hl.hover = true)
    (frames : List (List PObj))
    (hwf : ∀ f ∈ frames, ∀ o ∈ f, o.uuid = n.uuid → o = n) :
    (runFrames [] frames).map
        (fun evs => (evs.count (PEvent.hoverE n.uuid), evs.count (PEvent.unhoverE n.uuid)))
      = edgeCounts hl.unhover false (frames.map fun f => presentIn n f) :=
  runFrames_spec n hl hn hh frames [] false hwf
    (fun o ho => absurd ho (List.not_mem_nil o)) rfl

/-- Closed witness for C5: the node present on frames 1 and 2 and absent
on frame 3 fires hover exactly once (frame 1) and unhover exactly once
(frame 3). -/
theorem C5_witness :
    C5node.handlers = some { hover := true, unhover := true, click := false }
    ∧ (runFrames [] [[C5node], [C5node], []]).map
        (fun evs => (evs.count (PEvent.hoverE C5node.uuid), evs.count (PEvent.unhoverE C5node.uuid)))
      = [(1, 0), (0, 0), (0, 1)] := by
  refine ⟨rfl, ?_⟩
  have h := C5_hover_state_machine C5node { hover := true, unhover := true, click := false }
    rfl rfl [[C5node], [C5node], []] (by decide)
  rw [h]
  decide

theorem contains_append_single (l : List Nat) (v u : Nat) :
    (l ++ [v]).contains u = (l.contains u || (v == u)) := by
  by_cases h : u = v
  · subst h
    simp
  · have h2 : (v == u) = false := beq_eq_false_iff_ne.mpr (Ne.symm h)
    simp [h2, List.mem_append, h]

theorem clickFold_spec (n : PObj) (hl : HandlerFlags)
    (hn : n.handlers = some hl) (hcl : hl.click = true) :
    ∀ (frame : List PObj) (acc : List Nat × List PEvent),
      (∀ o ∈ frame, o.uuid = n.uuid → o = n) →
      ((frame.foldl clickStep acc).2.count (PEvent.clickE n.uuid)
         = acc.2.count (PEvent.clickE n.uuid)
           + (if presentIn n frame && !(acc.1.contains n.uuid) then 1 else 0))
      ∧ ((frame.foldl clickStep acc).1.contains n.uuid
         = (acc.1.contains n.uuid || presentIn n frame)) := by
  intro frame
  induction frame with
  | nil =>
      intro acc hwf
      refine ⟨by simp [presentIn], by simp [presentIn]⟩
  | cons o rest ih =>
      intro acc hwf
      have hwfr : ∀ q ∈ rest, q.uuid = n.uuid → q = n :=
        fun q hq => hwf q (List.mem_cons_of_mem o hq)
      rw [List.foldl_cons]
      by_cases hu : o.uuid = n.uuid
      · have hon : o = n := hwf o (List.mem_cons_self o rest) hu
        subst hon
        have hpr : presentIn o (o :: rest) = true := by
          simp [presentIn, List.any_cons]
        by_cases hcon : acc.1.contains o.uuid = true
        · have hcond : (hl.click && !(acc.1.contains o.uuid)) = false := by
            rw [hcon]
            simp
          have hstep : clickStep acc o = acc := by
            unfold clickStep
            rw [hn]
            dsimp only
            rw [hcond]
            simp
          rw [hstep, hpr]
          obtain ⟨ih1, ih2⟩ := ih acc hwfr
          refine ⟨?_, ?_⟩
          · rw [ih1, hcon]
            simp
          · rw [ih2, hcon]
            simp
        · have hconf : acc.1.contains o.uuid = false := eq_false_of_ne_true hcon
          have hcond : (hl.click && !(acc.1.contains o.uuid)) = true := by
            rw [hcl, hconf]
            simp
          have hstep : clickStep acc o
              = (acc.1 ++ [o.uuid], acc.2 ++ [PEvent.clickE o.uuid]) := by
            unfold clickStep
            rw [hn]
            dsimp only
            rw [hcond]
            simp
          rw [hstep, hpr]
          have hcon1 : (acc.1 ++ [o.uuid]).contains o.uuid = true := by
            rw [contains_append_single]
            simp
          obtain ⟨ih1, ih2⟩ := ih (acc.1 ++ [o.uuid], acc.2 ++ [PEvent.clickE o.uuid]) hwfr
          refine ⟨?_, ?_⟩
          · rw [ih1]
            dsimp only
            rw [hcon1, count_append_self, hconf]
            simp
          · rw [ih2]
            dsimp only
            rw [hcon1, hconf]
            simp
      · have hne : (o == n) = false := by
          simp only [beq_eq_false_iff_ne, ne_eq]
          intro he
          exact hu (by rw [he])
        have huB : (o.uuid == n.uuid) = false := by simpa using hu
        have hpr : presentIn n (o :: rest) = presentIn n rest := by
          simp [presentIn, List.any_cons, hne]
        have hkey :
            (clickStep acc o).1.contains n.uuid = acc.1.contains n.uuid
            ∧ (clickStep acc o).2.count (PEvent.clickE n.uuid)
                = acc.2.count (PEvent.clickE n.uuid) := by
          unfold clickStep
          rcases ho2 : o.handlers with _ | h2
          · exact ⟨rfl, rfl⟩
          · dsimp only
            by_cases hcc : (h2.click && !(acc.1.contains o.uuid)) = true
            · rw [if_pos hcc]
              refine ⟨?_, ?_⟩
              · rw [contains_append_single, huB]
                simp
              · apply count_append_event
                simp [hu]
            · rw [if_neg hcc]
              exact ⟨rfl, rfl⟩
        obtain ⟨ih1, ih2⟩ := ih (clickStep acc o) hwfr
        rw [hpr]
        exact ⟨by rw [ih1, hkey.1, hkey.2], by rw [ih2, hkey.1]⟩

/-- Claim C6: for one click event, a node with a registered click handler
has that handler invoked exactly once even when it occurs several times
in the intersection list; the dispatch depends only on this event's
intersection list (the `clicked` cache is fresh per event, independent of
the hover cache and of previous clicks). -/
theorem C6_click_once_per_event (n : PObj) (hl : HandlerFlags)
    (hn : n.handlers = some hl) (hcl : hl.click = true)
    (frame : List PObj)
    (hwf : ∀ o ∈ frame, o.uuid = n.uuid → o = n) :
    (onClickRun frame).count (PEvent.clickE n.uuid)
      = if presentIn n frame then 1 else 0 := by
  obtain ⟨h1, h2⟩ := clickFold_spec n hl hn hcl frame ([], []) hwf
  have he : onClickRun frame = (frame.foldl clickStep ([], [])).2 := rfl
  rw [he, h1]
  simp

/-- Closed witness for C6: the node occurring twice in one click's
intersection list fires exactly once. -/
theorem C6_witness :
    C6node.handlers = some { hover := false, unhover := false, click := true }
    ∧ (onClickRun [C6node, C6node]).count (PEvent.clickE C6node.uuid) = 1 := by
  refine ⟨rfl, ?_⟩
  have h := C6_click_once_per_event C6node
    { hover := false, unhover := false, click := true } rfl rfl [C6node, C6node] (by decide)
  rw [h]
  decide

end Picking

namespace Subs

/-- Claim C7 (recorded against the code): registering callback 11 into
the subscriber list [10, 12] and invoking the returned unsubscribe
function leaves [11] — the filter KEEPS the callback being removed and
deletes every other subscriber, the opposite of removal by identity. -/
theorem C7_unsubscribe_keeps_only_fn :
    subscribe [10, 12] 11 = [10, 12, 11]
    ∧ unsubscribe (subscribe [10, 12] 11) 11 = [11]
    ∧ unsubscribe (subscribe [10, 12] 11) 11 ≠ [10, 12] := by
  decide

end Subs
